import Mathlib

/-!
# Verification of the rendseq core (zscores.py, peaks.py)

A shallow embedding of `src/rendseq/zscores.py` and `src/rendseq/peaks.py`.

Conventions of the embedding:
* Python/numpy floats are idealised as exact rationals `ℚ`.
* numpy's `sqrt` (inside `std`) is modelled by `sqrtQ`, which is exact whenever the
  radicand has a perfect-square numerator and denominator (all concrete inputs used in
  theorems below are of this shape).  No theorem in this file depends on the value of
  `sqrtQ` off that domain.
* scipy's `norm.pdf`/`norm.ppf`/`norm.cdf` and `math.log` are transcendental external
  primitives; they are taken as function parameters (`pdf`, `logQ`, `ppf`, `cdf`).
* A read series (a numpy `(n,2)` array) is a `List (ℚ × ℚ)` of (position, value) rows.
* Fallible code is embedded in `Except String`; a raised Python exception becomes
  `.error msg`.  `warnings.warn` is not an exception and is dropped.
* Python `print` calls and matplotlib plotting are side effects with no bearing on the
  returned values (the spec declares plotting out of scope) and are dropped.
-/

namespace Rendseq

abbrev Reads := List (ℚ × ℚ)

/-- Row `i` of a reads array.  Python would raise `IndexError` out of range; every use
below is in range (noted at each call site), so a junk default `(0, 0)` is supplied. -/
def readAt (reads : Reads) (i : ℕ) : ℚ × ℚ := reads.getD i (0, 0)

/-- Python slice `l[a:b]` (step 1): negative indices count from the end, then both
bounds are clamped to `[0, len]`. -/
def pySlice {α : Type} (l : List α) (a b : ℤ) : List α :=
  let norm : ℤ → ℕ := fun i =>
    (max 0 (min (if i < 0 then i + l.length else i) (l.length : ℤ))).toNat
  (l.take (norm b)).drop (norm a)

/-- Error message of `raise ValueError("Window size...")` in `validate_window_gap`. -/
def windowMsg : String := "Window size must be larger than 1 to find a z-score"

/-- Error message of `raise ValueError("Gap size...")` in `validate_window_gap`. -/
def gapMsg : String := "Gap size must be at least zero to find a z-score"

/-- numpy error raised by `zeros([k, 2])` with `k < 0` in `z_scores`. -/
def negativeDimMsg : String := "ValueError: negative dimensions are not allowed"

/-- numpy error raised by the shape-mismatched assignment `z_score[:,0] = ...`. -/
def broadcastMsg : String := "ValueError: could not broadcast input array"

/-- numpy error raised by an out-of-range column index such as `trans_1[:, 2]`. -/
def indexErrorMsg : String := "IndexError: index is out of bounds for the axis"

/-- Python error raised by an out-of-range (after negative wrapping) list/array
assignment index. -/
def assignIndexMsg : String := "IndexError: assignment index out of range"

/-- `NameError` hit by the unrecognised-method branch of `calc_thresh`, whose print
statement references the misspelled variable `mehtods`. -/
def nameErrorMsg : String := "NameError: name mehtods is not defined"

/-- Modelled from the spec: `validate_reads` lives in the out-of-scope I/O collaborator
`file_funcs.py`, which is absent from `src/`.  Per spec section 1/6 (and the repository
tests for it) it only checks that the reads are an `(n, 2)` numeric array, a property
every `List (ℚ × ℚ)` has by construction here, so it always succeeds. -/
def validate_reads (_ : Reads) : Except String Unit := Except.ok ()

/-- The `while` loop of `adjust_down`: while `reads[cur,0] > target`, decrement, and
break once the index reaches 0.  Structural recursion on `cur` mirrors the decrement.
(From `cur = 0` with `reads[0,0] > target` Python would step to index `-1` and wrap;
positions handed to it by `z_scores` are bounded below by `reads[0,0]`, keeping that
branch unreachable there; the embedding floors at 0.) -/
def adjust_down_from (reads : Reads) (target : ℚ) : ℕ → ℕ
  | 0 => 0
  | c + 1 =>
    if (readAt reads (c + 1)).1 > target then
      (if c = 0 then 0 else adjust_down_from reads target c)
    else c + 1

/-- `adjust_down(cur_ind, target_val, reads)` of zscores.py: clamp `cur_ind` to
`len(reads) - 1`, then walk down to the first index whose position is `≤ target`. -/
def adjust_down (cur_ind : ℤ) (target_val : ℚ) (reads : Reads) : ℕ :=
  adjust_down_from reads target_val (min cur_ind ((reads.length : ℤ) - 1)).toNat

/-- The `while` loop of `adjust_up`: while `reads[cur,0] < target`, increment, breaking
at `len(reads) - 1`.  `fuel` makes the recursion structural; the wrapper passes
`len(reads) + 1`, which the `cur ≥ len - 1` break always undercuts, so the fuel-`0`
fallback (returning `cur` unchanged) is never the deciding case. -/
def adjust_up_from (reads : Reads) (target : ℚ) : ℕ → ℕ → ℕ
  | 0, cur => cur
  | fuel + 1, cur =>
    if (readAt reads cur).1 < target then
      (if reads.length - 1 ≤ cur then cur else adjust_up_from reads target fuel (cur + 1))
    else cur

/-- `adjust_up(cur_ind, target_val, reads)` of zscores.py: clamp `cur_ind` into
`[0, len(reads)]`, then walk up to the first index whose position is `≥ target`. -/
def adjust_up (cur_ind : ℤ) (target_val : ℚ) (reads : Reads) : ℕ :=
  adjust_up_from reads target_val (reads.length + 1)
    (min (max cur_ind 0) (reads.length : ℤ)).toNat

/-- numpy `mean` over exact rationals (mean of the empty list degenerates to `0/0 = 0`;
numpy would produce NaN there, a case no caller with non-negative `min_r` reaches). -/
def npMean (vals : List ℚ) : ℚ := vals.sum / vals.length

/-- Largest `k ≤ bound` with `k * k ≤ n` (structural downward scan). -/
def isqrtAux (n : ℕ) : ℕ → ℕ
  | 0 => 0
  | k + 1 => if (k + 1) * (k + 1) ≤ n then k + 1 else isqrtAux n k

/-- Integer square root `⌊√n⌋`, by structural recursion. -/
def isqrt (n : ℕ) : ℕ := isqrtAux n n

/-- Square root of a rational, exact on quotients of perfect squares: the embedding of
float `sqrt` as used by numpy `std`. -/
def sqrtQ (q : ℚ) : ℚ := (isqrt q.num.toNat : ℚ) / (isqrt q.den : ℚ)

/-- numpy population variance `mean((v - mean)²)`. -/
def npVar (vals : List ℚ) : ℚ := npMean (vals.map (fun v => (v - npMean vals) ^ 2))

/-- numpy population standard deviation `sqrt(var)`. -/
def npStd (vals : List ℚ) : ℚ := sqrtQ (npVar vals)

/-- `z_score(val, v_mean, v_std)` of zscores.py: a z-score with the convention that a
zero standard deviation yields 0. -/
def z_score (val v_mean v_std : ℚ) : ℚ :=
  if v_std = 0 then 0 else (val - v_mean) / v_std

/-- `remove_outliers(vals)` of zscores.py: when more than one value is present and the
standard deviation is nonzero, keep exactly the values whose absolute z-score (over
this same list) is `< 2.5`. -/
def remove_outliers (vals : List ℚ) : List ℚ :=
  if 1 < vals.length then
    (if npStd vals ≠ 0 then
      vals.filter (fun v => |z_score v (npMean vals) (npStd vals)| < 5/2)
    else vals)
  else vals

/-- `calc_score(vals, min_r, cur_val)` of zscores.py: `None` unless the summed values
exceed `min_r`, else the z-score of `cur_val` against the mean/std of `vals`. -/
def calc_score (vals : List ℚ) (min_r : ℚ) (cur_val : ℚ) : Option ℚ :=
  if vals.sum > min_r then some (z_score cur_val (npMean vals) (npStd vals)) else none

/-- `score_helper(start, stop, min_r, reads, i)` of zscores.py: score `reads[i,1]`
against the outlier-trimmed values of `reads[start:stop, 1]`. -/
def score_helper (start stop : ℕ) (min_r : ℚ) (reads : Reads) (i : ℕ) : Option ℚ :=
  calc_score (remove_outliers (((reads.drop start).take (stop - start)).map Prod.snd))
    min_r (readAt reads i).2

/-- `validate_window_gap(gap, w_sz)` of zscores.py.  The `gap == 1` branch only emits a
`warnings.warn`, which is not an exception, so it does not appear here. -/
def validate_window_gap (gap w_sz : ℤ) : Except String Unit :=
  if w_sz < 1 then Except.error windowMsg
  else if gap < 0 then Except.error gapMsg
  else Except.ok ()

/-- The body of `l_score_helper` after its validation call: window index search to the
left (`adjust_up` twice) followed by `score_helper`.  `i.toNat` is justified because
this code only runs after validation (`gap ≥ 0`, `w_sz ≥ 1`) with
`i ≥ gap + w_sz + 1 > 0`. -/
def l_window_score (gap w_sz : ℤ) (min_r : ℚ) (reads : Reads) (i : ℤ) : Option ℚ :=
  let ti := (readAt reads i.toNat).1
  score_helper (adjust_up (i - (gap + w_sz)) (ti - ((gap + w_sz : ℤ) : ℚ)) reads)
    (adjust_up (i - gap) (ti - ((gap : ℤ) : ℚ)) reads) min_r reads i.toNat

/-- `l_score_helper(gap, w_sz, min_r, reads, i)` of zscores.py: validate, then compute
the left-window score. -/
def l_score_helper (gap w_sz : ℤ) (min_r : ℚ) (reads : Reads) (i : ℤ) :
    Except String (Option ℚ) :=
  match validate_window_gap gap w_sz with
  | Except.error e => Except.error e
  | Except.ok _ => Except.ok (l_window_score gap w_sz min_r reads i)

/-- The body of `r_score_helper` after its validation call: window index search to the
right (`adjust_down` twice) followed by `score_helper`. -/
def r_window_score (gap w_sz : ℤ) (min_r : ℚ) (reads : Reads) (i : ℤ) : Option ℚ :=
  let ti := (readAt reads i.toNat).1
  score_helper (adjust_down (i + gap) (ti + ((gap : ℤ) : ℚ)) reads)
    (adjust_down (i + gap + w_sz) (ti + ((gap : ℤ) : ℚ) + ((w_sz : ℤ) : ℚ)) reads)
    min_r reads i.toNat

/-- `r_score_helper(gap, w_sz, min_r, reads, i)` of zscores.py. -/
def r_score_helper (gap w_sz : ℤ) (min_r : ℚ) (reads : Reads) (i : ℤ) :
    Except String (Option ℚ) :=
  match validate_window_gap gap w_sz with
  | Except.error e => Except.error e
  | Except.ok _ => Except.ok (r_window_score gap w_sz min_r reads i)

/-- The selection `if/elif/elif` chain of the `z_scores` loop body (zscores.py lines
160-165), as a decision function: `some v` means the iteration assigns `v` to the
output cell, `none` means no branch fired and the cell keeps its previous value.  The
only `none` case is both scores present with equal absolute values, where neither
strict `abs` comparison holds. -/
def pick_score (l r : Option ℚ) (raw : ℚ) : Option ℚ :=
  match l, r with
  | none, none => some (raw / 1.5)
  | none, some rv => some rv
  | some lv, none => some lv
  | some lv, some rv =>
    if |rv| < |lv| then some rv else if |lv| < |rv| then some lv else none

/-- The scoring `for` loop of `z_scores`: iterate the index list, compute both window
scores (each may raise through validation), and update the score column in place. -/
def z_loop (gap w_sz : ℤ) (min_r : ℚ) (reads : Reads) :
    List ℤ → List ℚ → Except String (List ℚ)
  | [], acc => Except.ok acc
  | i :: rest, acc =>
    match l_score_helper gap w_sz min_r reads i with
    | Except.error e => Except.error e
    | Except.ok l =>
      match r_score_helper gap w_sz min_r reads i with
      | Except.error e => Except.error e
      | Except.ok r =>
        z_loop gap w_sz min_r reads rest
          (match pick_score l r (readAt reads i.toNat).2 with
           | some v => acc.set (i - (gap + w_sz)).toNat v
           | none => acc)

/-- `z_scores(reads, gap, w_sz, min_r)` of zscores.py:
`zeros([len(reads) - 2*(gap+w_sz), 2])` (raising for a negative dimension), copy the
position column from `reads[gap+w_sz : len(reads)-(gap+w_sz), 0]` (raising when the
shapes cannot broadcast), then run the scoring loop for
`i in range(gap+w_sz+1, len(reads)-(gap+w_sz))`. -/
def z_scores (reads : Reads) (gap w_sz : ℤ) (min_r : ℚ) :
    Except String (List (ℚ × ℚ)) :=
  let n : ℤ := reads.length
  if n - 2 * (gap + w_sz) < 0 then Except.error negativeDimMsg
  else
    let m : ℕ := (n - 2 * (gap + w_sz)).toNat
    let positions := (pySlice reads (gap + w_sz) (n - (gap + w_sz))).map Prod.fst
    if positions.length ≠ m then Except.error broadcastMsg
    else
      match z_loop gap w_sz min_r reads
          ((List.range (m - 1)).map (fun (t : ℕ) => gap + w_sz + 1 + (t : ℤ)))
          (List.replicate m 0) with
      | Except.error e => Except.error e
      | Except.ok scores => Except.ok (positions.zip scores)

/-! ## peaks.py -/

/-- Entry `trans_m[k][j]` of the 2×2 transition matrix. -/
def tmAt (tm : List (List ℚ)) (k j : ℕ) : ℚ := (tm.getD k []).getD j 0

/-- `np.argmax` over a two-entry column: the first index attaining the maximum. -/
def np_argmax2 (a b : WithBot ℚ) : ℕ := if a < b then 1 else 0

/-- One cell of the Viterbi lattice of `populate_trans_mat`, specialised to the
two-state model its only caller uses (`states = [1, 100]`): the pair of `trans_1`
entries (log-score, with `⊥` standing for float `-inf`) and the pair of `trans_2`
entries (predecessor indices) at position `i`.  Position 0 is the initialisation
`trans_1[:,0] = 1`, `trans_2[:,0] = 0`; position `i+1` is the loop body: emission
densities `probs = [norm.pdf(z_i), norm.pdf(z_i, peak_center, spread)]`, and
`paths[k] = -inf` when the predecessor is `-inf` or the transition or emission weight
is zero, else the sum of the predecessor score and the two logs. -/
def vit_col (pdf : ℚ → ℚ → ℚ → ℚ) (logQ : ℚ → ℚ) (z : List (ℚ × ℚ))
    (peak_center spread : ℚ) (tm : List (List ℚ)) :
    ℕ → (WithBot ℚ × WithBot ℚ) × (ℕ × ℕ)
  | 0 => ((1, 1), (0, 0))
  | i + 1 =>
    let prev := (vit_col pdf logQ z peak_center spread tm i).1
    let zi := (readAt z (i + 1)).2
    let probs : ℕ → ℚ := fun j => if j = 0 then pdf zi 0 1 else pdf zi peak_center spread
    let path : ℕ → ℕ → WithBot ℚ := fun k j =>
      let pk := if k = 0 then prev.1 else prev.2
      if pk = ⊥ ∨ tmAt tm k j = 0 ∨ probs j = 0 then ⊥
      else pk + ((logQ (tmAt tm k j) : ℚ) : WithBot ℚ) + ((logQ (probs j) : ℚ) : WithBot ℚ)
    let b0 := np_argmax2 (path 0 0) (path 1 0)
    let b1 := np_argmax2 (path 0 1) (path 1 1)
    ((path b0 0, path b1 1), (b0, b1))

/-- `populate_trans_mat(z_scores, peak_center, spread, trans_m, states)` of peaks.py,
returning the pair `(trans_1, trans_2)` as two-row matrices (rows indexed by state,
columns by position), built from `vit_col`.  `states` is only used through
`len(states) = 2`, hardcoded in `vit_col`. -/
def populate_trans_mat (pdf : ℚ → ℚ → ℚ → ℚ) (logQ : ℚ → ℚ) (z : List (ℚ × ℚ))
    (peak_center spread : ℚ) (tm : List (List ℚ)) (_states : List ℚ) :
    List (List (WithBot ℚ)) × List (List ℕ) :=
  let c := vit_col pdf logQ z peak_center spread tm
  ([(List.range z.length).map (fun i => (c i).1.1),
    (List.range z.length).map (fun i => (c i).1.2)],
   [(List.range z.length).map (fun i => (c i).2.1),
    (List.range z.length).map (fun i => (c i).2.2)])

/-- numpy column read `rows[:, c]`: `IndexError` when `c` is out of range. -/
def getCol {α : Type} (dflt : α) (rows : List (List α)) (c : ℕ) :
    Except String (List α) :=
  if rows.all (fun r => c < r.length) then
    Except.ok (rows.map (fun r => r.getD c dflt))
  else Except.error indexErrorMsg

/-- Python array assignment `l[i] = v` for an integer list, with negative-index
wrapping and an `IndexError` out of range. -/
def pySetNat (l : List ℕ) (i : ℤ) (v : ℕ) : Except String (List ℕ) :=
  let j := if i < 0 then i + l.length else i
  if 0 ≤ j ∧ j < (l.length : ℤ) then Except.ok (l.set j.toNat v)
  else Except.error assignIndexMsg

/-- numpy assignment `peaks[i, -1] = v` / `peaks[i, 1] = v` on an `(n, 2)` array: both
write the second (score/label) column of row `i`; `i` wraps when negative and raises
`IndexError` out of range. -/
def pySetSnd (l : List (ℚ × ℚ)) (i : ℤ) (v : ℚ) : Except String (List (ℚ × ℚ)) :=
  let j := if i < 0 then i + l.length else i
  if 0 ≤ j ∧ j < (l.length : ℤ) then
    Except.ok (l.set j.toNat ((readAt l j.toNat).1, v))
  else Except.error assignIndexMsg

/-- The backtrace `for index in reversed(range(len(peaks)))` loop of `hmm_peaks`:
`max_inds[index-1] = trans_2[max_inds[index], index]` then
`peaks[index-1, 1] = states[max_inds[index-1]]`.  At `index = 0` both `index - 1`
targets wrap to the last entry, overwriting it.  The reads `max_inds[index]` and
`trans_2[...]` are always in range in every execution (indices come from
`range(len(peaks))` and argmax values are 0 or 1), hence use defaults. -/
def backtrack_loop (t2 : List (List ℕ)) (states : List ℚ) :
    List ℕ → List ℕ → List (ℚ × ℚ) → Except String (List ℕ × List (ℚ × ℚ))
  | [], maxInds, peaks => Except.ok (maxInds, peaks)
  | index :: rest, maxInds, peaks =>
    let mi := maxInds.getD index 0
    let v := (t2.getD mi []).getD index 0
    match pySetNat maxInds ((index : ℤ) - 1) v with
    | Except.error e => Except.error e
    | Except.ok maxInds' =>
      match pySetSnd peaks ((index : ℤ) - 1) (states.getD v 0) with
      | Except.error e => Except.error e
      | Except.ok peaks' => backtrack_loop t2 states rest maxInds' peaks'

/-- `hmm_peaks(z_scores, i_to_p, p_to_p, peak_center, spread)` of peaks.py: build the
transition matrix, run `populate_trans_mat`, seed the backtrace from
`np.argmax(trans_1[:, len(trans_1)])` — note `len` of the 2×n array `trans_1` is its
row count 2, so this reads column 2, not the last column — write
`peaks[1, -1] = states[...]`, then run the backwards trace and return `peaks`.
The `print` calls are dropped. -/
def hmm_peaks (pdf : ℚ → ℚ → ℚ → ℚ) (logQ : ℚ → ℚ) (z : List (ℚ × ℚ))
    (i_to_p p_to_p peak_center spread : ℚ) : Except String (List (ℚ × ℚ)) :=
  let trans_m : List (List ℚ) := [[1 - i_to_p, i_to_p], [p_to_p, 1 - p_to_p]]
  let states : List ℚ := [1, 100]
  let peaks0 : List (ℚ × ℚ) := z.map (fun r => (r.1, 0))
  let tp := populate_trans_mat pdf logQ z peak_center spread trans_m states
  match getCol (⊥ : WithBot ℚ) tp.1 tp.1.length with
  | Except.error e => Except.error e
  | Except.ok lastCol =>
    let miLast := np_argmax2 (lastCol.getD 0 ⊥) (lastCol.getD 1 ⊥)
    let maxInds0 := (List.replicate z.length 0).set (z.length - 1) miLast
    match pySetSnd peaks0 1 (states.getD miLast 0) with
    | Except.error e => Except.error e
    | Except.ok peaks1 =>
      match backtrack_loop tp.2 states ((List.range z.length).reverse) maxInds0 peaks1 with
      | Except.error e => Except.error e
      | Except.ok res => Except.ok res.2

/-- Python `round(q, 1)`: round to one decimal place.  (Python rounds half to even;
`round` here rounds half away from even on some midpoints — no theorem below depends
on a midpoint value.) -/
def round1 (q : ℚ) : ℚ := ((round (q * 10) : ℤ) : ℚ) / 10

/-- `calc_thresh(z_scores, method)` of peaks.py.  The `expected_val` branch computes
`thresh = round(norm.ppf(1 - 1/len(z_scores)), 1)` and the `kink` branch scans the
grid `0, 0.1, ..., 19.9` for the first point whose observed exceedance count is at
least 1000 times the expected one — but the function body contains no `return`
statement on any branch, so the Python call always yields `None` (`.ok none` here).
The unrecognised-method branch crashes with a `NameError` on the misspelled
`mehtods`.  The kink branch's matplotlib output is an out-of-scope side effect. -/
def calc_thresh (ppf cdf : ℚ → ℚ) (z : List (ℚ × ℚ)) (method : String) :
    Except String (Option ℚ) :=
  if method = "expected_val" then
    let p_val : ℚ := 1 / (z.length : ℚ)
    let _thresh := round1 (ppf (1 - p_val))
    Except.ok none
  else if method = "kink" then
    let pnts : List ℚ := (List.range 200).map (fun t => (t : ℚ) / 10)
    let _thresh := pnts.foldl
      (fun acc p =>
        let seen : ℚ := ((z.filter (fun r => r.2 > p)).length : ℚ)
        let expc : ℚ := (1 - cdf p) * (z.length : ℚ)
        if seen ≥ 1000 * expc ∧ acc = -1 then p else acc)
      (-1 : ℚ)
    Except.ok none
  else Except.error nameErrorMsg

/-! ## Concrete data used by the theorems below -/

/-- Reads whose left and right windows at `i = 4` (with `gap = 1`, `w_sz = 2`) carry
the same z-score 1: positions 1..8, values `5,1,3,9,3,3,1,5`. -/
def tieReads : Reads := [(1,5),(2,1),(3,3),(4,9),(5,3),(6,3),(7,1),(8,5)]

/-- Eight values whose mean is 1, population variance 4 (std exactly 2) and whose
largest z-score is exactly 2.5 (the value 6). -/
def borderVals : List ℚ := [0, 0, 0, 0, 0, 0, 2, 6]

/-- Three-row reads for small `z_scores` runs. -/
def smallReads : Reads := [(1,5),(2,6),(3,7)]

/-- Three-row reads whose value window `[1, 3]` has mean 2 and std exactly 1. -/
def stdOneReads : Reads := [(1,1),(2,3),(3,5)]

/-- Four-row constant reads, used with a negative gap. -/
def fourReads : Reads := [(1,1),(2,1),(3,1),(4,1)]

/-- A two-point z-score series (any values); `hmm_peaks` raises on it. -/
def twoZ : List (ℚ × ℚ) := [(1,0),(2,0)]

/-- A z-score series whose positions 1 and 2 carry the value 1000, at which float64
`norm.pdf(1000)` and `norm.pdf(1000, 12, 2)` both underflow to exactly 0. -/
def degenerateZ : List (ℚ × ℚ) := [(1,0),(2,1000),(3,1000)]

/-- A one-point z-score series. -/
def oneZ : List (ℚ × ℚ) := [(1,0)]

/-- A stand-in for the emission density used when its values are irrelevant. -/
def constPdf : ℚ → ℚ → ℚ → ℚ := fun _ _ _ => 1

/-- A density that underflows to 0 at argument 1000, as float64 `norm.pdf` does for
both the standard and the `(12, 2)` peak emission. -/
def underflowPdf : ℚ → ℚ → ℚ → ℚ := fun x _ _ => if x = 1000 then 0 else 1

/-- A stand-in for `math.log` when its values are irrelevant. -/
def constLog : ℚ → ℚ := fun _ => 0

/-! ## Helper lemmas -/

theorem validate_window_gap_ok {gap w_sz : ℤ} (hg : 0 ≤ gap) (hw : 1 ≤ w_sz) :
    validate_window_gap gap w_sz = Except.ok () := by
  unfold validate_window_gap
  rw [if_neg (by omega), if_neg (by omega)]

theorem validate_window_gap_err {gap w_sz : ℤ} (hbad : w_sz < 1 ∨ gap < 0) :
    validate_window_gap gap w_sz =
      Except.error (if w_sz < 1 then windowMsg else gapMsg) := by
  unfold validate_window_gap
  by_cases hw : w_sz < 1
  · rw [if_pos hw, if_pos hw]
  · rw [if_neg hw, if_neg hw, if_pos (by omega)]

theorem l_score_helper_eq (gap w_sz : ℤ) (min_r : ℚ) (reads : Reads) (i : ℤ)
    (hg : 0 ≤ gap) (hw : 1 ≤ w_sz) :
    l_score_helper gap w_sz min_r reads i =
      Except.ok (l_window_score gap w_sz min_r reads i) := by
  unfold l_score_helper
  rw [validate_window_gap_ok hg hw]

theorem r_score_helper_eq (gap w_sz : ℤ) (min_r : ℚ) (reads : Reads) (i : ℤ)
    (hg : 0 ≤ gap) (hw : 1 ≤ w_sz) :
    r_score_helper gap w_sz min_r reads i =
      Except.ok (r_window_score gap w_sz min_r reads i) := by
  unfold r_score_helper
  rw [validate_window_gap_ok hg hw]

theorem z_loop_ok_of_valid (gap w_sz : ℤ) (min_r : ℚ) (reads : Reads)
    (hg : 0 ≤ gap) (hw : 1 ≤ w_sz) :
    ∀ (is : List ℤ) (acc : List ℚ),
      ∃ s, z_loop gap w_sz min_r reads is acc = Except.ok s ∧
        s.length = acc.length ∧
        ∀ k : ℕ, (∀ i ∈ is, (i - (gap + w_sz)).toNat ≠ k) → s[k]? = acc[k]? := by
  intro is
  induction is with
  | nil => exact fun acc => ⟨acc, rfl, rfl, fun _ _ => rfl⟩
  | cons i rest ih =>
    intro acc
    have hl := l_score_helper_eq gap w_sz min_r reads i hg hw
    have hr := r_score_helper_eq gap w_sz min_r reads i hg hw
    cases hp : pick_score (l_window_score gap w_sz min_r reads i)
        (r_window_score gap w_sz min_r reads i) (readAt reads i.toNat).2 with
    | none =>
      obtain ⟨s, h1, h2, h3⟩ := ih acc
      refine ⟨s, ?_, h2, ?_⟩
      · rw [z_loop, hl, hr]
        simpa [hp] using h1
      · intro k hk
        exact h3 k (fun j hj => hk j (List.mem_cons_of_mem _ hj))
    | some v =>
      obtain ⟨s, h1, h2, h3⟩ := ih (acc.set (i - (gap + w_sz)).toNat v)
      refine ⟨s, ?_, by rw [h2, List.length_set], ?_⟩
      · rw [z_loop, hl, hr]
        simpa [hp] using h1
      · intro k hk
        rw [h3 k (fun j hj => hk j (List.mem_cons_of_mem _ hj))]
        exact List.getElem?_set_ne (hk i (List.mem_cons_self i rest))

theorem z_loop_write (gap w_sz : ℤ) (min_r : ℚ) (reads : Reads)
    (hg : 0 ≤ gap) (hw : 1 ≤ w_sz) :
    ∀ (pre : List ℤ) (i0 : ℤ) (post : List ℤ) (acc : List ℚ) (k : ℕ),
      (∀ i ∈ pre, (i - (gap + w_sz)).toNat ≠ k) →
      (∀ i ∈ post, (i - (gap + w_sz)).toNat ≠ k) →
      (i0 - (gap + w_sz)).toNat = k → k < acc.length →
      ∃ s, z_loop gap w_sz min_r reads (pre ++ i0 :: post) acc = Except.ok s ∧
        s[k]? = some ((pick_score (l_window_score gap w_sz min_r reads i0)
          (r_window_score gap w_sz min_r reads i0)
          (readAt reads i0.toNat).2).getD (acc.getD k 0)) := by
  intro pre
  induction pre with
  | nil =>
    intro i0 post acc k _ hpost hi0 hklen
    have hl := l_score_helper_eq gap w_sz min_r reads i0 hg hw
    have hr := r_score_helper_eq gap w_sz min_r reads i0 hg hw
    cases hp : pick_score (l_window_score gap w_sz min_r reads i0)
        (r_window_score gap w_sz min_r reads i0) (readAt reads i0.toNat).2 with
    | none =>
      obtain ⟨s, h1, _, h3⟩ := z_loop_ok_of_valid gap w_sz min_r reads hg hw post acc
      refine ⟨s, ?_, ?_⟩
      · rw [List.nil_append, z_loop, hl, hr]
        simpa [hp] using h1
      · rw [h3 k hpost, Option.getD_none, List.getD_eq_getElem acc 0 hklen]
        exact List.getElem?_eq_getElem hklen
    | some v =>
      obtain ⟨s, h1, _, h3⟩ := z_loop_ok_of_valid gap w_sz min_r reads hg hw post (acc.set k v)
      refine ⟨s, ?_, ?_⟩
      · rw [List.nil_append, z_loop, hl, hr]
        simpa [hp, hi0] using h1
      · rw [h3 k hpost, Option.getD_some]
        exact List.getElem?_set_eq_of_lt v hklen
  | cons p pre' ih =>
    intro i0 post acc k hpre hpost hi0 hklen
    have hl := l_score_helper_eq gap w_sz min_r reads p hg hw
    have hr := r_score_helper_eq gap w_sz min_r reads p hg hw
    have hpk : (p - (gap + w_sz)).toNat ≠ k := hpre p (List.mem_cons_self p pre')
    have hpre' : ∀ i ∈ pre', (i - (gap + w_sz)).toNat ≠ k :=
      fun j hj => hpre j (List.mem_cons_of_mem _ hj)
    cases hp : pick_score (l_window_score gap w_sz min_r reads p)
        (r_window_score gap w_sz min_r reads p) (readAt reads p.toNat).2 with
    | none =>
      obtain ⟨s, h1, h2⟩ := ih i0 post acc k hpre' hpost hi0 hklen
      refine ⟨s, ?_, h2⟩
      rw [List.cons_append, z_loop, hl, hr]
      simpa [hp] using h1
    | some v =>
      obtain ⟨s, h1, h2⟩ :=
        ih i0 post (acc.set (p - (gap + w_sz)).toNat v) k hpre' hpost hi0
          (by rw [List.length_set]; exact hklen)
      refine ⟨s, ?_, ?_⟩
      · rw [List.cons_append, z_loop, hl, hr]
        simpa [hp] using h1
      · rw [h2]
        have hgd : (acc.set (p - (gap + w_sz)).toNat v).getD k 0 = acc.getD k 0 := by
          rw [List.getD_eq_getElem?_getD, List.getD_eq_getElem?_getD,
            List.getElem?_set_ne hpk]
        rw [hgd]

theorem pySlice_norm {α : Type} (l : List α) (a : ℤ) (ha : 0 ≤ a)
    (hb : a ≤ (l.length : ℤ)) :
    (max 0 (min (if a < 0 then a + l.length else a) (l.length : ℤ))).toNat = a.toNat := by
  rw [if_neg (by omega), min_eq_left hb, max_eq_right ha]

theorem pySlice_length {α : Type} (l : List α) (a b : ℤ) (ha : 0 ≤ a) (hab : a ≤ b)
    (hb : b ≤ (l.length : ℤ)) : ((pySlice l a b).length : ℤ) = b - a := by
  simp only [pySlice]
  rw [pySlice_norm l a ha (by omega), pySlice_norm l b (by omega) hb,
    List.length_drop, List.length_take]
  omega

theorem pySlice_getElem {α : Type} (l : List α) (a b : ℤ) (k : ℕ) (ha : 0 ≤ a)
    (hb : b ≤ (l.length : ℤ)) (hk : a + k < b) :
    (pySlice l a b)[k]? = l[a.toNat + k]? := by
  simp only [pySlice]
  rw [pySlice_norm l a ha (by omega), pySlice_norm l b (by omega) hb,
    List.getElem?_drop, List.getElem?_take]
  rw [if_pos (by omega)]

theorem replicate_getD (n k : ℕ) : (List.replicate n (0 : ℚ)).getD k 0 = 0 := by
  rw [List.getD_eq_getElem?_getD, List.getElem?_replicate]
  by_cases h : k < n
  · rw [if_pos h, Option.getD_some]
  · rw [if_neg h, Option.getD_none]

theorem mem_range1 {m s n : ℕ} : m ∈ List.range' s n 1 ↔ s ≤ m ∧ m < s + n := by
  constructor
  · intro h
    obtain ⟨i, hi, rfl⟩ := List.mem_range'.1 h
    omega
  · intro h
    exact List.mem_range'.2 ⟨m - s, by omega, by omega⟩

/-- The full behaviour of `z_scores` on valid parameters and sufficiently long reads:
it succeeds, the output has `len(reads) - 2*(gap+w_sz)` rows, and row `k` carries the
position of `reads[gap+w_sz+k]` together with a score that is 0 for `k = 0` (the loop
starts at `gap+w_sz+1`) and otherwise the value selected by `pick_score` from the two
window scores, defaulting to the initial 0 when `pick_score` fires no branch. -/
theorem z_scores_spec (reads : Reads) (gap w_sz : ℕ) (min_r : ℚ) (hw : 1 ≤ w_sz)
    (hn : 2 * (gap + w_sz) ≤ reads.length) :
    ∃ out, z_scores reads (gap : ℤ) (w_sz : ℤ) min_r = Except.ok out ∧
      out.length = reads.length - 2 * (gap + w_sz) ∧
      ∀ k, k < reads.length - 2 * (gap + w_sz) →
        out[k]? = some ((readAt reads (gap + w_sz + k)).1,
          if k = 0 then 0 else
            (pick_score
              (l_window_score (gap : ℤ) (w_sz : ℤ) min_r reads ((gap : ℤ) + (w_sz : ℤ) + 1 + ((k - 1 : ℕ) : ℤ)))
              (r_window_score (gap : ℤ) (w_sz : ℤ) min_r reads ((gap : ℤ) + (w_sz : ℤ) + 1 + ((k - 1 : ℕ) : ℤ)))
              (readAt reads (gap + w_sz + k)).2).getD 0) := by
  have hg0 : (0 : ℤ) ≤ (gap : ℤ) := Int.ofNat_nonneg gap
  have hw0 : (1 : ℤ) ≤ (w_sz : ℤ) := by exact_mod_cast hw
  have hm_def : ((reads.length : ℤ) - 2 * ((gap : ℤ) + (w_sz : ℤ))).toNat
      = reads.length - 2 * (gap + w_sz) := by omega
  -- the slice that fills the position column
  have hplen : ((((pySlice reads ((gap : ℤ) + (w_sz : ℤ))
      ((reads.length : ℤ) - ((gap : ℤ) + (w_sz : ℤ)))).map Prod.fst).length : ℤ))
      = ((reads.length - 2 * (gap + w_sz) : ℕ) : ℤ) := by
    rw [List.length_map,
      pySlice_length reads ((gap : ℤ) + (w_sz : ℤ))
        ((reads.length : ℤ) - ((gap : ℤ) + (w_sz : ℤ))) (by omega) (by omega) (by omega)]
    omega
  have hpget : ∀ k, k < reads.length - 2 * (gap + w_sz) →
      ((pySlice reads ((gap : ℤ) + (w_sz : ℤ))
        ((reads.length : ℤ) - ((gap : ℤ) + (w_sz : ℤ)))).map Prod.fst)[k]? =
        some (readAt reads (gap + w_sz + k)).1 := by
    intro k hk
    rw [List.getElem?_map,
      pySlice_getElem reads ((gap : ℤ) + (w_sz : ℤ))
        ((reads.length : ℤ) - ((gap : ℤ) + (w_sz : ℤ))) k (by omega) (by omega) (by omega)]
    have hGk : gap + w_sz + k < reads.length := by omega
    have harg : ((gap : ℤ) + (w_sz : ℤ)).toNat + k = gap + w_sz + k := by omega
    rw [harg, List.getElem?_eq_getElem hGk, Option.map_some']
    unfold readAt
    rw [List.getD_eq_getElem reads (0, 0) hGk]
  -- the scoring loop
  obtain ⟨s, hs_run, hs_len, hs_zero⟩ :=
    z_loop_ok_of_valid (gap : ℤ) (w_sz : ℤ) min_r reads hg0 hw0
      ((List.range (reads.length - 2 * (gap + w_sz) - 1)).map
        (fun (t : ℕ) => (gap : ℤ) + (w_sz : ℤ) + 1 + (t : ℤ)))
      (List.replicate (reads.length - 2 * (gap + w_sz)) 0)
  have hs_len' : s.length = reads.length - 2 * (gap + w_sz) := by
    rw [hs_len, List.length_replicate]
  -- assemble
  refine ⟨((pySlice reads ((gap : ℤ) + (w_sz : ℤ))
      ((reads.length : ℤ) - ((gap : ℤ) + (w_sz : ℤ)))).map Prod.fst).zip s, ?_, ?_, ?_⟩
  · simp only [z_scores]
    rw [if_neg (by omega), hm_def, if_neg (by omega), hs_run]
  · rw [List.length_zip, hs_len']
    omega
  · intro k hk
    have hkp : k < ((pySlice reads ((gap : ℤ) + (w_sz : ℤ))
        ((reads.length : ℤ) - ((gap : ℤ) + (w_sz : ℤ)))).map Prod.fst).length := by
      omega
    have hks : k < s.length := by omega
    have hkz : k < (((pySlice reads ((gap : ℤ) + (w_sz : ℤ))
        ((reads.length : ℤ) - ((gap : ℤ) + (w_sz : ℤ)))).map Prod.fst).zip s).length := by
      rw [List.length_zip]
      omega
    rw [List.getElem?_eq_getElem hkz, List.getElem_zip, Option.some.injEq, Prod.mk.injEq]
    constructor
    · have hpos := hpget k hk
      rw [List.getElem?_eq_getElem hkp, Option.some.injEq] at hpos
      exact hpos
    · by_cases hk0 : k = 0
      · subst hk0
        rw [if_pos rfl]
        have h0 : s[0]? = (List.replicate (reads.length - 2 * (gap + w_sz)) (0 : ℚ))[0]? := by
          refine hs_zero 0 ?_
          intro i hi
          rw [List.mem_map] at hi
          obtain ⟨t, _, rfl⟩ := hi
          omega
        rw [List.getElem?_eq_getElem hks, List.getElem?_replicate, if_pos (by omega),
          Option.some.injEq] at h0
        exact h0
      · rw [if_neg hk0]
        -- decompose the index list around iteration gap+w_sz+k
        have hsplit : List.range (reads.length - 2 * (gap + w_sz) - 1) =
            List.range' 0 (k - 1) 1 ++
              (k - 1) :: List.range' k (reads.length - 2 * (gap + w_sz) - 1 - k) 1 := by
          rw [List.range_eq_range']
          have h1 : List.range' (k - 1)
              (reads.length - 2 * (gap + w_sz) - 1 - (k - 1)) 1 =
              (k - 1) :: List.range' k (reads.length - 2 * (gap + w_sz) - 1 - k) 1 := by
            have hm1 : reads.length - 2 * (gap + w_sz) - 1 - (k - 1) =
                (reads.length - 2 * (gap + w_sz) - 1 - k) + 1 := by omega
            have hk1 : k - 1 + 1 = k := by omega
            rw [hm1, List.range'_succ, hk1]
          have h2 := List.range'_append 0 (k - 1)
            (reads.length - 2 * (gap + w_sz) - 1 - (k - 1)) 1
          simp only [Nat.zero_add, Nat.one_mul] at h2
          have h3 : reads.length - 2 * (gap + w_sz) - 1 - (k - 1) + (k - 1) =
              reads.length - 2 * (gap + w_sz) - 1 := by omega
          rw [h3] at h2
          rw [← h1, h2]
        obtain ⟨s2, hs2_run, hs2_get⟩ :=
          z_loop_write (gap : ℤ) (w_sz : ℤ) min_r reads hg0 hw0
            ((List.range' 0 (k - 1) 1).map (fun (t : ℕ) => (gap : ℤ) + (w_sz : ℤ) + 1 + (t : ℤ)))
            ((gap : ℤ) + (w_sz : ℤ) + 1 + ((k - 1 : ℕ) : ℤ))
            ((List.range' k (reads.length - 2 * (gap + w_sz) - 1 - k) 1).map
              (fun (t : ℕ) => (gap : ℤ) + (w_sz : ℤ) + 1 + (t : ℤ)))
            (List.replicate (reads.length - 2 * (gap + w_sz)) 0) k
            (by
              intro i hi
              rw [List.mem_map] at hi
              obtain ⟨t, ht, rfl⟩ := hi
              rw [mem_range1] at ht
              omega)
            (by
              intro i hi
              rw [List.mem_map] at hi
              obtain ⟨t, ht, rfl⟩ := hi
              rw [mem_range1] at ht
              omega)
            (by omega)
            (by rw [List.length_replicate]; omega)
        have hlist : (List.range (reads.length - 2 * (gap + w_sz) - 1)).map
            (fun (t : ℕ) => (gap : ℤ) + (w_sz : ℤ) + 1 + (t : ℤ)) =
            (List.range' 0 (k - 1) 1).map (fun (t : ℕ) => (gap : ℤ) + (w_sz : ℤ) + 1 + (t : ℤ)) ++
            ((gap : ℤ) + (w_sz : ℤ) + 1 + ((k - 1 : ℕ) : ℤ)) ::
            (List.range' k (reads.length - 2 * (gap + w_sz) - 1 - k) 1).map
              (fun (t : ℕ) => (gap : ℤ) + (w_sz : ℤ) + 1 + (t : ℤ)) := by
          rw [hsplit, List.map_append, List.map_cons]
        rw [hlist] at hs_run
        rw [hs2_run, Except.ok.injEq] at hs_run
        subst hs_run
        rw [replicate_getD] at hs2_get
        rw [List.getElem?_eq_getElem hks, Option.some.injEq] at hs2_get
        have hidx : ((gap : ℤ) + (w_sz : ℤ) + 1 + ((k - 1 : ℕ) : ℤ)).toNat
            = gap + w_sz + k := by omega
        rw [hidx] at hs2_get
        exact hs2_get


/-! ## Claim theorems: z-score transform -/

/-- C4 (counterexample): the claim quantifies over every reads array, but on an array
shorter than `2*(gap+window_size)` (here: the empty array with the default
`gap = 5`, `w_sz = 50`) `z_scores` does not return a series at all — numpy raises on
the negative dimension of `zeros([len(reads) - 2*(gap+w_sz), 2])`. -/
theorem c4_shape_counterexample :
    z_scores [] 5 50 20 = Except.error negativeDimMsg := by
  with_unfolding_all rfl

/-- C4 (amended): for every reads array of length at least `2*(gap + window_size)`
(and valid `gap ≥ 0`, `window_size ≥ 1`), `z_scores` returns a series of length
`length(reads) - 2*(gap + window_size)`, and when that length is positive the first
entry's position equals the position of `reads[gap + window_size]`. -/
theorem c4_series_shape (reads : Reads) (gap w_sz : ℕ) (min_r : ℚ) (hw : 1 ≤ w_sz)
    (hn : 2 * (gap + w_sz) ≤ reads.length) :
    ∃ out, z_scores reads (gap : ℤ) (w_sz : ℤ) min_r = Except.ok out ∧
      out.length = reads.length - 2 * (gap + w_sz) ∧
      (2 * (gap + w_sz) < reads.length →
        out[0]?.map Prod.fst = (reads[gap + w_sz]?).map Prod.fst) := by
  obtain ⟨out, hok, hlen, hget⟩ := z_scores_spec reads gap w_sz min_r hw hn
  refine ⟨out, hok, hlen, ?_⟩
  intro hlt
  have h0 := hget 0 (by omega)
  rw [if_pos rfl, Nat.add_zero] at h0
  have hb : gap + w_sz < reads.length := by omega
  rw [h0, List.getElem?_eq_getElem hb]
  unfold readAt
  rw [List.getD_eq_getElem reads (0, 0) hb]
  rfl

/-- C4 (witness): the amended claim applied to a 3-row read array with `gap = 0`,
`w_sz = 1`. -/
theorem c4_series_shape_witness :
    ∃ out, z_scores smallReads ((0 : ℕ) : ℤ) ((1 : ℕ) : ℤ) 20 = Except.ok out ∧
      out.length = smallReads.length - 2 * (0 + 1) ∧
      (2 * (0 + 1) < smallReads.length →
        out[0]?.map Prod.fst = (smallReads[0 + 1]?).map Prod.fst) :=
  c4_series_shape smallReads 0 1 20 (by omega) (by simp [smallReads])

/-- C10: for every reads array long enough to produce a non-empty output
(`length(reads) > 2*(gap + window_size)`, with valid `gap ≥ 0`, `window_size ≥ 1`),
the first entry of the returned series has score exactly 0: the scoring loop starts at
index `gap + w_sz + 1`, one past the first output position, so output row 0 keeps the
zero it was initialised with. -/
theorem c10_first_score_zero (reads : Reads) (gap w_sz : ℕ) (min_r : ℚ)
    (hw : 1 ≤ w_sz) (hn : 2 * (gap + w_sz) < reads.length) :
    ∃ out, z_scores reads (gap : ℤ) (w_sz : ℤ) min_r = Except.ok out ∧
      out[0]? = some ((readAt reads (gap + w_sz)).1, 0) := by
  obtain ⟨out, hok, hlen, hget⟩ := z_scores_spec reads gap w_sz min_r hw (by omega)
  refine ⟨out, hok, ?_⟩
  have h0 := hget 0 (by omega)
  rw [if_pos rfl, Nat.add_zero] at h0
  exact h0

/-- C10 (witness): a 3-row read array with `gap = 0`, `w_sz = 1`: the sole output row
is `(position of reads[1], 0)`. -/
theorem c10_first_score_zero_witness :
    ∃ out, z_scores smallReads ((0 : ℕ) : ℤ) ((1 : ℕ) : ℤ) 20 = Except.ok out ∧
      out[0]? = some ((readAt smallReads (0 + 1)).1, 0) :=
  c10_first_score_zero smallReads 0 1 20 (by omega) (by simp [smallReads])


/-- C1 (counterexample): with `gap = 1`, `w_sz = 2`, `min_r = 0` on `tieReads`, both
window scores at the second output position are defined and equal to 1, yet the
emitted score is 0 (the if/elif chain of `z_scores` requires a strictly smaller
absolute value, so with `|l| = |r|` no branch fires and the cell keeps its initial 0),
contradicting "the emitted score is the one of the two with smaller absolute value". -/
theorem c1_tie_counterexample :
    l_window_score 1 2 0 tieReads 4 = some 1 ∧
    r_window_score 1 2 0 tieReads 4 = some 1 ∧
    z_scores tieReads 1 2 0 = Except.ok [(4, 0), (5, 0)] ∧ (0 : ℚ) ≠ 1 := by
  refine ⟨?_, ?_, ?_, ?_⟩
  · with_unfolding_all rfl
  · with_unfolding_all rfl
  · with_unfolding_all rfl
  · norm_num

/-- C1 (amended): for every output position `k ≥ 1` of `z_scores` (valid parameters,
reads long enough), writing `l`/`r` for the left/right window scores at that position:
if both are defined and one absolute value is strictly smaller, that side is emitted;
if both are defined with equal absolute values, no branch of the if/elif chain fires
and the emitted score is the initialised 0; if exactly one is defined, it is emitted;
if neither is defined, the raw count divided by 1.5 is emitted. -/
theorem c1_selection_policy (reads : Reads) (gap w_sz : ℕ) (min_r : ℚ) (k : ℕ)
    (hw : 1 ≤ w_sz) (hk1 : 1 ≤ k) (hkm : k + 2 * (gap + w_sz) < reads.length) :
    ∃ out s, z_scores reads (gap : ℤ) (w_sz : ℤ) min_r = Except.ok out ∧
      out[k]? = some ((readAt reads (gap + w_sz + k)).1, s) ∧
      (l_window_score (gap : ℤ) (w_sz : ℤ) min_r reads ((gap + w_sz + k : ℕ) : ℤ) = none →
        r_window_score (gap : ℤ) (w_sz : ℤ) min_r reads ((gap + w_sz + k : ℕ) : ℤ) = none →
        s = (readAt reads (gap + w_sz + k)).2 / 1.5) ∧
      (∀ lv, l_window_score (gap : ℤ) (w_sz : ℤ) min_r reads ((gap + w_sz + k : ℕ) : ℤ) = some lv →
        r_window_score (gap : ℤ) (w_sz : ℤ) min_r reads ((gap + w_sz + k : ℕ) : ℤ) = none →
        s = lv) ∧
      (∀ rv, l_window_score (gap : ℤ) (w_sz : ℤ) min_r reads ((gap + w_sz + k : ℕ) : ℤ) = none →
        r_window_score (gap : ℤ) (w_sz : ℤ) min_r reads ((gap + w_sz + k : ℕ) : ℤ) = some rv →
        s = rv) ∧
      (∀ lv rv, l_window_score (gap : ℤ) (w_sz : ℤ) min_r reads ((gap + w_sz + k : ℕ) : ℤ) = some lv →
        r_window_score (gap : ℤ) (w_sz : ℤ) min_r reads ((gap + w_sz + k : ℕ) : ℤ) = some rv →
        (|rv| < |lv| → s = rv) ∧ (|lv| < |rv| → s = lv) ∧ (|lv| = |rv| → s = 0)) := by
  obtain ⟨out, hok, hlen, hget⟩ := z_scores_spec reads gap w_sz min_r hw (by omega)
  have hcast : ((gap : ℤ) + (w_sz : ℤ) + 1 + ((k - 1 : ℕ) : ℤ)) = ((gap + w_sz + k : ℕ) : ℤ) := by
    push_cast
    omega
  have hgetk := hget k (by omega)
  rw [if_neg (by omega), hcast] at hgetk
  refine ⟨out,
    (pick_score (l_window_score (gap : ℤ) (w_sz : ℤ) min_r reads ((gap + w_sz + k : ℕ) : ℤ))
      (r_window_score (gap : ℤ) (w_sz : ℤ) min_r reads ((gap + w_sz + k : ℕ) : ℤ))
      (readAt reads (gap + w_sz + k)).2).getD 0, hok, hgetk, ?_, ?_, ?_, ?_⟩
  · intro hl hr
    rw [hl, hr]
    rfl
  · intro lv hl hr
    rw [hl, hr]
    rfl
  · intro rv hl hr
    rw [hl, hr]
    rfl
  · intro lv rv hl hr
    rw [hl, hr]
    refine ⟨fun hlt => ?_, fun hlt => ?_, fun heq => ?_⟩
    · simp only [pick_score, if_pos hlt, Option.getD_some]
    · simp only [pick_score, if_neg (lt_asymm hlt), if_pos hlt, Option.getD_some]
    · have h1 : ¬ |rv| < |lv| := by rw [heq]; exact lt_irrefl _
      have h2 : ¬ |lv| < |rv| := by rw [heq]; exact lt_irrefl _
      simp only [pick_score, if_neg h1, if_neg h2, Option.getD_none]

/-- C1 (witness): the amended claim applied to the constant array `fourReads` with
`gap = 0`, `w_sz = 1`, `min_r = 20`, output position `k = 1`: both window sums are
below `min_r`, so both sides are undefined and the emitted score is the raw count
divided by 1.5. -/
theorem c1_selection_policy_witness :
    ∃ out s, z_scores fourReads ((0 : ℕ) : ℤ) ((1 : ℕ) : ℤ) 20 = Except.ok out ∧
      out[1]? = some ((readAt fourReads (0 + 1 + 1)).1, s) ∧
      s = (readAt fourReads (0 + 1 + 1)).2 / 1.5 := by
  obtain ⟨out, s, hok, hget, hnone, _, _, _⟩ :=
    c1_selection_policy fourReads 0 1 20 1 (by omega) (by omega) (by simp [fourReads])
  have hl : l_window_score ((0 : ℕ) : ℤ) ((1 : ℕ) : ℤ) 20 fourReads ((0 + 1 + 1 : ℕ) : ℤ)
      = none := by with_unfolding_all rfl
  have hr : r_window_score ((0 : ℕ) : ℤ) ((1 : ℕ) : ℤ) 20 fourReads ((0 + 1 + 1 : ℕ) : ℤ)
      = none := by with_unfolding_all rfl
  exact ⟨out, s, hok, hget, hnone hl hr⟩

/-- C8 (counterexample): the claim demands rejection for all input arrays, but a call
with `window_size = 0 < 1` on a one-row array returns normally: validation only runs
inside the scoring loop, and the loop body never executes when the array is too short
to score any position. -/
theorem c8_rejection_counterexample :
    (0 : ℤ) < 1 ∧ z_scores [((1 : ℚ), 5)] 0 0 20 = Except.ok [(1, 0)] := by
  refine ⟨by norm_num, ?_⟩
  with_unfolding_all rfl

/-- C8 (amended): a call to `z_scores` with `window_size < 1` or `gap < 0` is rejected
with the corresponding `ValueError` as soon as the scoring loop runs its first
iteration, i.e. whenever `length(reads) > 2*(gap + window_size) + 1` (and
`gap + window_size ≥ 0`, so that the earlier array allocation and position-column
broadcast succeed).  Calls whose read array is too short to score any position return
without the validation error (see the counterexample). -/
theorem c8_invalid_rejected_when_scored (reads : Reads) (gap w_sz : ℤ) (min_r : ℚ)
    (hbad : w_sz < 1 ∨ gap < 0) (hgw : 0 ≤ gap + w_sz)
    (hlen : 2 * (gap + w_sz) + 1 < (reads.length : ℤ)) :
    z_scores reads gap w_sz min_r =
      Except.error (if w_sz < 1 then windowMsg else gapMsg) := by
  simp only [z_scores]
  rw [if_neg (by omega)]
  have hpl : ((((pySlice reads (gap + w_sz) ((reads.length : ℤ) - (gap + w_sz))).map
      Prod.fst).length : ℤ)) = (reads.length : ℤ) - 2 * (gap + w_sz) := by
    rw [List.length_map,
      pySlice_length reads (gap + w_sz) ((reads.length : ℤ) - (gap + w_sz))
        (by omega) (by omega) (by omega)]
    ring
  rw [if_neg (by omega)]
  obtain ⟨c, hc⟩ : ∃ c, ((reads.length : ℤ) - 2 * (gap + w_sz)).toNat - 1 = c + 1 :=
    ⟨((reads.length : ℤ) - 2 * (gap + w_sz)).toNat - 2, by omega⟩
  rw [hc, List.range_succ_eq_map, List.map_cons, z_loop]
  unfold l_score_helper
  rw [validate_window_gap_err hbad]

/-- C8 (witness): the amended claim applied to a 4-row array with `gap = -1`,
`w_sz = 1`: the call fails with the gap `ValueError`. -/
theorem c8_invalid_rejected_witness :
    z_scores fourReads (-1) 1 0 = Except.error gapMsg := by
  have h := c8_invalid_rejected_when_scored fourReads (-1) 1 0 (Or.inr (by norm_num))
    (by norm_num) (by simp [fourReads])
  rw [if_neg (by norm_num)] at h
  exact h


/-- C7: for every window, `score_helper` (the one-sided window scorer) returns the
"no score" result `none` if and only if the sum of the outlier-trimmed window values
does not exceed `min_r`; and when the sum does exceed `min_r`, the result is the
z-score of the target value against the trimmed mean and standard deviation.
Insufficient data never raises a fault: `score_helper` is a total function into
`Option ℚ` (the embedding of `float | None`), with no error channel. -/
theorem c7_window_score_contract (start stop : ℕ) (min_r : ℚ) (reads : Reads) (i : ℕ) :
    (score_helper start stop min_r reads i = none ↔
      (remove_outliers (((reads.drop start).take (stop - start)).map Prod.snd)).sum
        ≤ min_r) ∧
    (min_r <
        (remove_outliers (((reads.drop start).take (stop - start)).map Prod.snd)).sum →
      score_helper start stop min_r reads i = some (z_score (readAt reads i).2
        (npMean (remove_outliers (((reads.drop start).take (stop - start)).map Prod.snd)))
        (npStd (remove_outliers (((reads.drop start).take (stop - start)).map Prod.snd))))) := by
  unfold score_helper calc_score
  by_cases h : (remove_outliers (((reads.drop start).take (stop - start)).map
      Prod.snd)).sum > min_r
  · rw [if_pos h]
    constructor
    · constructor
      · intro habs
        exact absurd habs (by simp)
      · intro hle
        exact absurd h (not_lt.mpr hle)
    · intro _
      rfl
  · rw [if_neg h]
    constructor
    · exact ⟨fun _ => not_lt.mp h, fun _ => rfl⟩
    · intro hlt
      exact absurd hlt h

/-- C7 (witness): on `stdOneReads` the window of rows 0..1 has trimmed values
`[1, 3]` (sum 4, mean 2, std exactly 1) and target value 5: with `min_r = 3` the score
is `(5 - 2)/1 = 3`; with `min_r = 1000` the result is the "no score" value. -/
theorem c7_window_score_contract_witness :
    score_helper 0 2 3 stdOneReads 2 = some 3 ∧
    score_helper 0 2 1000 stdOneReads 2 = none := by
  have hsum : (remove_outliers (((stdOneReads.drop 0).take (2 - 0)).map Prod.snd)).sum
      = 4 := by with_unfolding_all rfl
  constructor
  · have h := (c7_window_score_contract 0 2 3 stdOneReads 2).2
    refine (h (by rw [hsum]; norm_num)).trans ?_
    with_unfolding_all rfl
  · have h := (c7_window_score_contract 0 2 1000 stdOneReads 2).1
    exact h.mpr (by rw [hsum]; norm_num)

/-- C6 (counterexample): on `borderVals` (mean 1, std exactly 2) no entry has absolute
z-score exceeding 2.5 — the extreme entry 6 sits exactly at 2.5 — so by the claim the
list should be returned unchanged; but `remove_outliers` keeps only entries with
absolute z-score strictly below 2.5 and removes the 6. -/
theorem c6_borderline_counterexample :
    remove_outliers borderVals ≠ borderVals ∧
    ∀ v ∈ borderVals, ¬ (5/2 < |z_score v (npMean borderVals) (npStd borderVals)|) := by
  constructor
  · with_unfolding_all decide
  · with_unfolding_all decide

/-- C6 (amended): `remove_outliers` removes exactly those entries whose absolute
z-score over the same input list is at least 2.5 (strictly-below-2.5 entries are
kept), in a single non-iterative pass; if the input has at most one element or zero
standard deviation, the input is returned unchanged. -/
theorem c6_trim_outliers (vals : List ℚ) :
    (vals.length ≤ 1 → remove_outliers vals = vals) ∧
    (npStd vals = 0 → remove_outliers vals = vals) ∧
    (∀ v, v ∈ remove_outliers vals ↔ v ∈ vals ∧
      (1 < vals.length → npStd vals ≠ 0 →
        |z_score v (npMean vals) (npStd vals)| < 5/2)) := by
  unfold remove_outliers
  by_cases hlen : 1 < vals.length
  · rw [if_pos hlen]
    by_cases hstd : npStd vals = 0
    · rw [if_neg (by simpa using hstd)]
      refine ⟨fun h => absurd hlen (by omega), fun _ => rfl, fun v => ?_⟩
      constructor
      · exact fun hv => ⟨hv, fun _ h0 => absurd hstd h0⟩
      · exact fun h => h.1
    · rw [if_pos (by simpa using hstd)]
      refine ⟨fun h => absurd hlen (by omega), fun h => absurd h hstd, fun v => ?_⟩
      rw [List.mem_filter]
      constructor
      · intro ⟨hv, hp⟩
        exact ⟨hv, fun _ _ => by simpa using hp⟩
      · intro ⟨hv, hp⟩
        exact ⟨hv, by simpa using hp hlen hstd⟩
  · rw [if_neg hlen]
    refine ⟨fun _ => rfl, fun _ => rfl, fun v => ?_⟩
    constructor
    · exact fun hv => ⟨hv, fun h => absurd h hlen⟩
    · exact fun h => h.1

/-- C6 (witness): the amended claim applied to a singleton (returned unchanged) and
to `[3, 4]` (membership characterisation at the value 3). -/
theorem c6_trim_outliers_witness :
    remove_outliers [(5 : ℚ)] = [5] ∧
    ((3 : ℚ) ∈ remove_outliers [3, 4] ↔ (3 : ℚ) ∈ ([3, 4] : List ℚ) ∧
      (1 < ([3, 4] : List ℚ).length → npStd [3, 4] ≠ 0 →
        |z_score 3 (npMean [3, 4]) (npStd [3, 4])| < 5/2)) :=
  ⟨(c6_trim_outliers [5]).1 (by simp), (c6_trim_outliers [3, 4]).2.2 3⟩


/-! ## Claim theorems: peak callers -/

/-- C3 (counterexample): the Viterbi lattice's first column is initialised to 1
(`trans_1[:,0] = 1`), not 0 as the claim states: for a concrete one-point series the
first column reads `[1, 1]`, and `1 ≠ 0`. -/
theorem c3_init_counterexample :
    getCol (⊥ : WithBot ℚ)
      (populate_trans_mat constPdf constLog oneZ 12 2 [[1, 0], [0, 1]] [1, 100]).1 0
      = Except.ok [(1 : WithBot ℚ), 1] ∧ (1 : ℚ) ≠ 0 := by
  constructor
  · with_unfolding_all rfl
  · norm_num

/-- C3 (amended): for every non-empty z-score series (and any emission model,
transition matrix and parameters), the lattice is initialised with
`V[j,0] = 1` for both states — the same finite (non-`-inf`) value for each state, so
the first position is unconditionally reachable in either state with no relative bias
between the states; the claimed value 0 (log 1) is not what the code assigns. -/
theorem c3_viterbi_init (pdf : ℚ → ℚ → ℚ → ℚ) (logQ : ℚ → ℚ) (z : List (ℚ × ℚ))
    (peak_center spread : ℚ) (tm : List (List ℚ)) (states : List ℚ)
    (hz : 1 ≤ z.length) :
    getCol (⊥ : WithBot ℚ)
      (populate_trans_mat pdf logQ z peak_center spread tm states).1 0
      = Except.ok [(1 : WithBot ℚ), 1] := by
  simp only [populate_trans_mat, getCol]
  rw [if_pos (by
    simp only [List.all_cons, List.all_nil, List.length_map, List.length_range,
      Bool.and_eq_true, decide_eq_true_eq, and_true]
    omega)]
  simp only [List.map_cons, List.map_nil, List.getD_eq_getElem?_getD,
    List.getElem?_map]
  have h0 : (List.range z.length)[0]? = some 0 := by
    rw [List.getElem?_eq_getElem (by simpa using hz)]
    simp [List.getElem_range]
  rw [h0]
  simp [vit_col]

/-- C3 (witness): the amended claim applied to a concrete one-point series. -/
theorem c3_viterbi_init_witness :
    getCol (⊥ : WithBot ℚ)
      (populate_trans_mat constPdf constLog oneZ 12 2 [[1, 0], [0, 1]] [1, 100]).1 0
      = Except.ok [(1 : WithBot ℚ), 1] :=
  c3_viterbi_init constPdf constLog oneZ 12 2 [[1, 0], [0, 1]] [1, 100] (by simp [oneZ])

/-- C2: on a two-point z-score series (default parameters, any emission density and
log), `hmm_peaks` does not recover any state sequence: the seed of the backtrace reads
`trans_1[:, len(trans_1)]`, and `len` of the 2×n lattice is its row count 2, so for
`n = 2` the read is out of bounds and the call dies with an `IndexError` instead of
backtracking from the final column `V[·, n-1]`. -/
theorem c2_backtrace_crash (pdf : ℚ → ℚ → ℚ → ℚ) (logQ : ℚ → ℚ) :
    hmm_peaks pdf logQ twoZ (1/2000) (1/1.5) 12 2 = Except.error indexErrorMsg := by
  simp only [hmm_peaks, populate_trans_mat, getCol, twoZ]
  norm_num

/-- C9: on the z-score series `degenerateZ`, whose scores of 1000 drive both float64
emission densities to exactly 0 (`norm.pdf(1000)` and `norm.pdf(1000, 12, 2)` both
underflow, modelled by `underflowPdf`), every path's log-probability is `-inf` from
position 1 onwards; `hmm_peaks` does not detect this and silently returns the
all-background path `[1, 1, 1]` selected by `np.argmax`'s first-index tie-break,
instead of reporting a modeling error. -/
theorem c9_degenerate_not_detected :
    hmm_peaks underflowPdf constLog degenerateZ (1/2000) (1/1.5) 12 2 =
      Except.ok [(1, 1), (2, 1), (3, 1)] := by
  set_option maxRecDepth 4000 in
  with_unfolding_all rfl

/-- C5: for every z-score series, threshold selection with method `expected_val`
yields Python `None`: `calc_thresh` computes
`thresh = round(norm.ppf(1 - 1/len(z_scores)), 1)` but its body contains no `return`
statement, so the rounded quantile (second conjunct: a genuine `float`, distinct from
`None`) is computed and discarded, contradicting the claim (and the function's own
docstring and the repository tests, which expect the threshold). -/
theorem c5_expected_val_returns_none (ppf cdf : ℚ → ℚ) (z : List (ℚ × ℚ)) :
    calc_thresh ppf cdf z "expected_val" = Except.ok none ∧
    (Except.ok (some (round1 (ppf (1 - 1 / (z.length : ℚ))))) : Except String (Option ℚ))
      ≠ Except.ok none := by
  constructor
  · unfold calc_thresh
    rw [if_pos rfl]
  · simp

end Rendseq
